import Mathlib

/-!
Verification of the Telegram price-checker pipeline.

Shallow embedding of `get_crypto_price` from `bot.py`: the search stage,
the primary/secondary price-fetch failover, the price formatter, and the
composition of the final reply.  External HTTP calls are modelled by an
environment mapping request parameters to response outcomes; the pipeline
returns the list of replies sent and the trace of provider calls made.
-/

namespace PriceBot

/-- A search result entry: the fields the code reads from `coins[0]`
(`coin["id"]`, `coin["name"]`, `coin["symbol"]`). -/
structure Coin where
  id : String
  name : String
  symbol : String
deriving DecidableEq

/-- Outcome of the search HTTP call.  `callError` covers a raised exception
from the call itself or from JSON parsing; `badStatus` is a non-success
status (which `raise_for_status` turns into an exception); `ok cf` is a
success whose parsed body is inspected via `j.get("coins")`:
`none` = no `"coins"` key, `some none` = key mapped to null,
`some (some l)` = key mapped to a list. -/
inductive SearchResponse where
  | callError
  | badStatus
  | ok (coinsField : Option (Option (List Coin)))
deriving DecidableEq

/-- Outcome of the primary (CoinGecko) price call.  On `ok`,
`entry = none` means the asset-id key is absent from the response,
`entry = some none` means the key is present but its value has no `"usd"`
sub-field, and `entry = some (some p)` means a USD price `p` is present. -/
inductive PrimaryResponse where
  | callError
  | badStatus
  | ok (entry : Option (Option ℚ))
deriving DecidableEq

/-- Outcome of the secondary (CryptoCompare) price call.  On `ok`,
`usd = none` means the response lacks the `"USD"` key. -/
inductive SecondaryResponse where
  | callError
  | badStatus
  | ok (usd : Option ℚ)
deriving DecidableEq

/-- The environment of provider responses, keyed by the request parameter
the code sends: the search query, the `ids` parameter (the coin id), and
the `fsym` parameter (the upper-cased symbol). -/
structure Env where
  search : String → SearchResponse
  primary : String → PrimaryResponse
  secondary : String → SecondaryResponse

/-- One outbound provider call, recorded with the parameter it was keyed by. -/
inductive Call where
  | searchCall (query : String)
  | primaryCall (ids : String)
  | secondaryCall (fsym : String)
deriving DecidableEq

/-- The observable outcome of one pipeline run: the replies sent via
`reply_text`, in order, and the provider calls made, in order. -/
structure RunResult where
  replies : List String
  calls : List Call
deriving DecidableEq

/-! ## Price formatting

The code renders `f"${p:,.8f}"` when `0 < p < 0.01` and `f"${p:,.2f}"`
otherwise: sign, thousands-separated integer part, a dot, and exactly
`n` fractional digits, rounding half-to-even. -/

/-- Round `num / den` to the nearest natural, ties to even (`den > 0`). -/
def roundHalfEven (num den : ℕ) : ℕ :=
  let q := num / den
  let r := num % den
  if 2 * r < den then q
  else if den < 2 * r then q + 1
  else if q % 2 = 0 then q else q + 1

/-- The decimal digits of `v`, least significant first; empty for `0`.
Structurally recursive on a fuel bound (`v` has at most `v` digits when
`v ≥ 1`, so fuel `v` always suffices). -/
def natDigitsRevAux : ℕ → ℕ → List Char
  | 0, _ => []
  | _ + 1, 0 => []
  | fuel + 1, v + 1 => Nat.digitChar ((v + 1) % 10) :: natDigitsRevAux fuel ((v + 1) / 10)

def natDigitsRev (v : ℕ) : List Char := natDigitsRevAux v v

/-- Insert a comma after every third digit of a reversed digit list. -/
def commasRev : List Char → List Char
  | c1 :: c2 :: c3 :: c4 :: rest => c1 :: c2 :: c3 :: ',' :: commasRev (c4 :: rest)
  | l => l

/-- Render `v` in decimal with thousands separators, as Python `{v:,}` does. -/
def groupThousands (v : ℕ) : String :=
  String.mk (commasRev (if v = 0 then ['0'] else natDigitsRev v)).reverse

/-- Exactly `n` decimal digits of `v`, most significant first, zero-padded. -/
def natDigitsPadded : ℕ → ℕ → List Char
  | _, 0 => []
  | v, k + 1 => natDigitsPadded (v / 10) k ++ [Nat.digitChar (v % 10)]

/-- Python `f"{q:,.nf}"`: fixed-point rendering of `q` with `n` fractional
digits (round half to even), thousands separators, and a sign for
negative values. -/
def formatFixed (q : ℚ) (n : ℕ) : String :=
  (if q < 0 then "-" else "")
    ++ groupThousands (roundHalfEven (q.num.natAbs * 10 ^ n) q.den / 10 ^ n)
    ++ "." ++ String.mk (natDigitsPadded (roundHalfEven (q.num.natAbs * 10 ^ n) q.den % 10 ^ n) n)

/-- The formatting expression of the code:
`f"${p:,.8f}" if 0 < p < 0.01 else f"${p:,.2f}"`. -/
def formatPrice (p : ℚ) : String :=
  if 0 < p ∧ p < mkRat 1 100 then "$" ++ formatFixed p 8 else "$" ++ formatFixed p 2

/-! ## String normalization

Python's `str.strip()`, `str.lower()` and `str.upper()`, realized as
structurally recursive maps over the character list (the inputs handled
here are the ASCII names and symbols the providers exchange). -/

/-- Python `str.strip()`: drop leading and trailing whitespace. -/
def pyStrip (s : String) : String :=
  String.mk (((s.data.dropWhile Char.isWhitespace).reverse.dropWhile
    Char.isWhitespace).reverse)

/-- Python `str.lower()`. -/
def pyLower (s : String) : String := String.mk (s.data.map Char.toLower)

/-- Python `str.upper()`. -/
def pyUpper (s : String) : String := String.mk (s.data.map Char.toUpper)

/-! ## The pipeline -/

/-- The expression `j.get("coins") or []`: a missing or null `"coins"` key yields `[]`. -/
def getCoins : Option (Option (List Coin)) → List Coin
  | some (some l) => l
  | _ => []

/-- The variable `price_usd` is set by the primary attempt only in the
`coin_id in pj and "usd" in pj[coin_id]` case; every other outcome raises
(or is an exception already) and routes to the fallback. -/
def primaryFailed : PrimaryResponse → Bool
  | .ok (some (some _)) => false
  | _ => true

/-- Outcome of the price-fetch stage (the two `try` blocks). -/
inductive FetchResult where
  | primaryPrice (p : ℚ)
  | backupPrice (p : ℚ)
  | bothFailed
  | noPrice
deriving DecidableEq

/-- The failover logic: primary success yields `primaryPrice`; otherwise the
secondary is consulted — an exception there (call error or non-success
status) yields `bothFailed`, a success carrying `"USD"` yields
`backupPrice`, and a success lacking `"USD"` leaves `price_usd` as `None`
(`noPrice`). -/
def fetchPrice (env : Env) (coin : Coin) : FetchResult :=
  match env.primary coin.id with
  | .ok (some (some p)) => .primaryPrice p
  | _ =>
    match env.secondary (pyUpper coin.symbol) with
    | .callError => .bothFailed
    | .badStatus => .bothFailed
    | .ok (some p) => .backupPrice p
    | .ok none => .noPrice

/-- The provider calls made by the price-fetch stage. -/
def fetchCalls (env : Env) (coin : Coin) : List Call :=
  match env.primary coin.id with
  | .ok (some (some _)) => [.primaryCall coin.id]
  | _ => [.primaryCall coin.id, .secondaryCall (pyUpper coin.symbol)]

/-- The final price reply:
`f"<b>{coin_symbol.upper()}</b> ({coin_name})\n<b>Price (USD):</b> {formatted}{note}"`. -/
def composeMsg (coin : Coin) (p : ℚ) (note : String) : String :=
  "<b>" ++ pyUpper coin.symbol ++ "</b> (" ++ coin.name
    ++ ")\n<b>Price (USD):</b> " ++ formatPrice p ++ note

/-- The annotation appended when the backup provider served the price. -/
def viaBackupNote : String := " (via backup)"

/-- The handler `get_crypto_price`: normalize the text, search, resolve the first
result, fetch with failover, format, reply.  Every branch replies and
returns; nothing propagates to the caller. -/
def get_crypto_price (env : Env) (text : String) : RunResult :=
  let query := pyLower (pyStrip text)
  match env.search query with
  | .callError => ⟨["⚠️ Error searching for that coin."], [.searchCall query]⟩
  | .badStatus => ⟨["⚠️ Error searching for that coin."], [.searchCall query]⟩
  | .ok cf =>
    match getCoins cf with
    | [] => ⟨["❌ No coin found for \x27" ++ query ++ "\x27."], [.searchCall query]⟩
    | coin :: _ =>
      let calls := Call.searchCall query :: fetchCalls env coin
      match fetchPrice env coin with
      | .primaryPrice p => ⟨[composeMsg coin p ""], calls⟩
      | .backupPrice p => ⟨[composeMsg coin p viaBackupNote], calls⟩
      | .bothFailed => ⟨["⚠️ Both price providers failed."], calls⟩
      | .noPrice => ⟨["❌ Couldn\x27t determine the price."], calls⟩

/-- Substring occurrence test used only to state counterexamples:
does `needle` occur contiguously in `hay`? -/
def leadsWith : List Char → List Char → Bool
  | _, [] => true
  | [], _ :: _ => false
  | c :: cs, d :: ds => c == d && leadsWith cs ds

def containsChars : List Char → List Char → Bool
  | [], needle => needle.isEmpty
  | c :: rest, needle => leadsWith (c :: rest) needle || containsChars rest needle

def strContains (hay needle : String) : Bool :=
  containsChars hay.data needle.data

/-! ## Formatting lemmas -/

theorem natDigitsPadded_length (k : ℕ) : ∀ v : ℕ, (natDigitsPadded v k).length = k := by
  induction k with
  | zero => intro v; rfl
  | succ k ih => intro v; simp [natDigitsPadded, ih]

theorem digitChar_isDigit : ∀ d : ℕ, d < 10 → (Nat.digitChar d).isDigit = true := by decide

theorem natDigitsPadded_digits (k : ℕ) :
    ∀ v : ℕ, ∀ c ∈ natDigitsPadded v k, c.isDigit = true := by
  induction k with
  | zero => intro v c hc; simp [natDigitsPadded] at hc
  | succ k ih =>
    intro v c hc
    rcases List.mem_append.1 hc with h | h
    · exact ih _ _ h
    · have hd : c = Nat.digitChar (v % 10) := by simpa using h
      subst hd
      exact digitChar_isDigit _ (Nat.mod_lt _ (by norm_num))

theorem natDigitsRevAux_digits (fuel : ℕ) :
    ∀ v c, c ∈ natDigitsRevAux fuel v → c.isDigit = true := by
  induction fuel with
  | zero => intro v c h; simp [natDigitsRevAux] at h
  | succ fuel ih =>
    intro v c h
    match v with
    | 0 => simp [natDigitsRevAux] at h
    | w + 1 =>
      rcases List.mem_cons.1 h with h1 | h1
      · subst h1
        exact digitChar_isDigit _ (Nat.mod_lt _ (by norm_num))
      · exact ih _ _ h1

theorem commasRev_mem (l : List Char) : ∀ c ∈ commasRev l, c ∈ l ∨ c = ',' := by
  induction l using commasRev.induct with
  | case1 c1 c2 c3 c4 rest ih =>
    intro c hc
    rw [commasRev] at hc
    rcases List.mem_cons.1 hc with h | h
    · exact Or.inl (by simp [h])
    rcases List.mem_cons.1 h with h | h
    · exact Or.inl (by simp [h])
    rcases List.mem_cons.1 h with h | h
    · exact Or.inl (by simp [h])
    rcases List.mem_cons.1 h with h | h
    · exact Or.inr h
    · rcases ih c h with h2 | h2
      · exact Or.inl (by simp [List.mem_cons.1 h2])
      · exact Or.inr h2
  | case2 l hl =>
    intro c hc
    rw [commasRev] at hc
    · exact Or.inl hc
    · exact hl

theorem groupThousands_chars (v : ℕ) :
    ∀ c ∈ (groupThousands v).data, c.isDigit = true ∨ c = ',' := by
  intro c hc
  have hc' : c ∈ commasRev (if v = 0 then ['0'] else natDigitsRev v) := by
    simpa [groupThousands] using hc
  rcases commasRev_mem _ c hc' with h | h
  · split at h
    · left
      have : c = '0' := by simpa using h
      subst this
      decide
    · left
      exact natDigitsRevAux_digits _ _ _ h
  · exact Or.inr h

/-- C4: for every finite amount, `format` renders 8 fractional digits
exactly when `0 < amount < 0.01` and 2 fractional digits otherwise, with
thousands separators and a leading `$`; in particular
`format(0.0000001234) = "$0.00000012"`, `format(43125.5) = "$43,125.50"`,
and `format(0.01)` uses the 2-decimal form (the high-precision interval is
exclusive at `0.01`). -/
theorem C4_format_precision :
    (∀ q : ℚ, ∃ intPart frac : String,
        formatPrice q = "$" ++ intPart ++ "." ++ frac ∧
        (∀ c ∈ frac.data, c.isDigit = true) ∧
        (∀ c ∈ intPart.data, c ≠ '.') ∧
        frac.length = if 0 < q ∧ q < 1 / 100 then 8 else 2) ∧
    formatPrice (1234 / 10 ^ 10) = "$0.00000012" ∧
    formatPrice 43125.5 = "$43,125.50" ∧
    formatPrice 0.01 = "$0.01" := by
  have hmk : (mkRat 1 100 : ℚ) = 1 / 100 := by norm_num [Rat.mkRat_eq_div]
  refine ⟨?_, ?_, ?_, ?_⟩
  · intro q
    by_cases h : 0 < q ∧ q < 1 / 100
    · refine ⟨(if q < 0 then "-" else "")
          ++ groupThousands (roundHalfEven (q.num.natAbs * 10 ^ 8) q.den / 10 ^ 8),
        String.mk (natDigitsPadded (roundHalfEven (q.num.natAbs * 10 ^ 8) q.den % 10 ^ 8) 8),
        ?_, ?_, ?_, ?_⟩
      · rw [formatPrice, if_pos (by rw [hmk]; exact h), formatFixed]
        simp [String.append_assoc]
      · intro c hc
        exact natDigitsPadded_digits _ _ c hc
      · intro c hc he
        rcases List.mem_append.1 (by simpa [String.data_append] using hc) with h1 | h1
        · subst he
          split at h1 <;> simp at h1
        · subst he
          rcases groupThousands_chars _ _ h1 with h2 | h2 <;> simp at h2
      · rw [if_pos h]
        exact natDigitsPadded_length 8 _
    · refine ⟨(if q < 0 then "-" else "")
          ++ groupThousands (roundHalfEven (q.num.natAbs * 10 ^ 2) q.den / 10 ^ 2),
        String.mk (natDigitsPadded (roundHalfEven (q.num.natAbs * 10 ^ 2) q.den % 10 ^ 2) 2),
        ?_, ?_, ?_, ?_⟩
      · rw [formatPrice, if_neg (by rw [hmk]; exact h), formatFixed]
        simp [String.append_assoc]
      · intro c hc
        exact natDigitsPadded_digits _ _ c hc
      · intro c hc he
        rcases List.mem_append.1 (by simpa [String.data_append] using hc) with h1 | h1
        · subst he
          split at h1 <;> simp at h1
        · subst he
          rcases groupThousands_chars _ _ h1 with h2 | h2 <;> simp at h2
      · rw [if_neg h]
        exact natDigitsPadded_length 2 _
  · rw [show ((1234 : ℚ) / 10 ^ 10) = mkRat 1234 (10 ^ 10) by norm_num [Rat.mkRat_eq_div]]
    decide
  · rw [show (43125.5 : ℚ) = mkRat 431255 10 by norm_num [Rat.mkRat_eq_div]]
    decide
  · rw [show (0.01 : ℚ) = mkRat 1 100 by norm_num [Rat.mkRat_eq_div]]
    decide

/-- Witness for C4 at the concrete amount `3/2`. -/
theorem C4_format_precision_witness :
    ∃ intPart frac : String,
      formatPrice (mkRat 3 2) = "$" ++ intPart ++ "." ++ frac ∧
      (∀ c ∈ frac.data, c.isDigit = true) ∧
      (∀ c ∈ intPart.data, c ≠ '.') ∧
      frac.length = if 0 < (mkRat 3 2 : ℚ) ∧ (mkRat 3 2 : ℚ) < 1 / 100 then 8 else 2 :=
  C4_format_precision.1 (mkRat 3 2)

/-- C10: formatting is total over all (rational) amounts; a zero or
negative amount renders in the 2-fractional-digit form, and `0` yields
`"$0.00"` rather than erroring. -/
theorem C10_nonpositive_two_decimals :
    (∀ q : ℚ, q ≤ 0 → formatPrice q = "$" ++ formatFixed q 2) ∧
    formatPrice 0 = "$0.00" := by
  constructor
  · intro q hq
    rw [formatPrice, if_neg]
    rintro ⟨h1, _⟩
    exact absurd (lt_of_lt_of_le h1 hq) (lt_irrefl 0)
  · decide

/-- Witness for C10 at the concrete amount `-1`. -/
theorem C10_nonpositive_two_decimals_witness :
    (-1 : ℚ) ≤ 0 ∧ formatPrice (-1) = "$" ++ formatFixed (-1) 2 :=
  ⟨by norm_num, C10_nonpositive_two_decimals.1 (-1) (by norm_num)⟩

/-! ## Pipeline lemmas -/

/-- The note is appended verbatim at the end of the composed message. -/
theorem composeMsg_note (coin : Coin) (p : ℚ) (note : String) :
    composeMsg coin p note = composeMsg coin p "" ++ note := by
  simp [composeMsg, String.append_assoc, String.append_empty]

/-- What the fallback branch yields for each secondary outcome. -/
def secondaryOutcome : SecondaryResponse → FetchResult
  | .callError => .bothFailed
  | .badStatus => .bothFailed
  | .ok (some p) => .backupPrice p
  | .ok none => .noPrice

theorem fetchPrice_of_success (env : Env) (coin : Coin) (p : ℚ)
    (h : env.primary coin.id = .ok (some (some p))) :
    fetchPrice env coin = .primaryPrice p := by
  simp [fetchPrice, h]

theorem fetchCalls_of_success (env : Env) (coin : Coin) (p : ℚ)
    (h : env.primary coin.id = .ok (some (some p))) :
    fetchCalls env coin = [.primaryCall coin.id] := by
  simp [fetchCalls, h]

theorem fetchPrice_of_failed (env : Env) (coin : Coin)
    (h : primaryFailed (env.primary coin.id) = true) :
    fetchPrice env coin = secondaryOutcome (env.secondary (pyUpper coin.symbol)) := by
  cases hp : env.primary coin.id with
  | callError =>
    cases hs : env.secondary (pyUpper coin.symbol) with
    | ok usd => cases usd <;> simp [fetchPrice, secondaryOutcome, hp, hs]
    | _ => simp [fetchPrice, secondaryOutcome, hp, hs]
  | badStatus =>
    cases hs : env.secondary (pyUpper coin.symbol) with
    | ok usd => cases usd <;> simp [fetchPrice, secondaryOutcome, hp, hs]
    | _ => simp [fetchPrice, secondaryOutcome, hp, hs]
  | ok entry =>
    match entry with
    | none =>
      cases hs : env.secondary (pyUpper coin.symbol) with
      | ok usd => cases usd <;> simp [fetchPrice, secondaryOutcome, hp, hs]
      | _ => simp [fetchPrice, secondaryOutcome, hp, hs]
    | some none =>
      cases hs : env.secondary (pyUpper coin.symbol) with
      | ok usd => cases usd <;> simp [fetchPrice, secondaryOutcome, hp, hs]
      | _ => simp [fetchPrice, secondaryOutcome, hp, hs]
    | some (some p) =>
      rw [hp] at h
      simp [primaryFailed] at h

theorem fetchCalls_of_failed (env : Env) (coin : Coin)
    (h : primaryFailed (env.primary coin.id) = true) :
    fetchCalls env coin = [.primaryCall coin.id, .secondaryCall (pyUpper coin.symbol)] := by
  cases hp : env.primary coin.id with
  | callError => simp [fetchCalls, hp]
  | badStatus => simp [fetchCalls, hp]
  | ok entry =>
    match entry with
    | none => simp [fetchCalls, hp]
    | some none => simp [fetchCalls, hp]
    | some (some p) =>
      rw [hp] at h
      simp [primaryFailed] at h

/-- Every call the price-fetch stage makes is keyed by the resolved coin. -/
theorem fetchCalls_mem (env : Env) (coin : Coin) :
    ∀ x ∈ fetchCalls env coin,
      x = .primaryCall coin.id ∨ x = .secondaryCall (pyUpper coin.symbol) := by
  intro x hx
  unfold fetchCalls at hx
  split at hx
  · simp at hx
    exact Or.inl hx
  · simpa using hx

/-- Shape of a run once the search stage resolved a first coin. -/
theorem run_resolved (env : Env) (text : String) (cf : Option (Option (List Coin)))
    (coin : Coin) (rest : List Coin)
    (hs : env.search (pyLower (pyStrip text)) = .ok cf)
    (hc : getCoins cf = coin :: rest) :
    get_crypto_price env text =
      ⟨[match fetchPrice env coin with
        | .primaryPrice p => composeMsg coin p ""
        | .backupPrice p => composeMsg coin p viaBackupNote
        | .bothFailed => "⚠️ Both price providers failed."
        | .noPrice => "❌ Couldn\x27t determine the price."],
       Call.searchCall (pyLower (pyStrip text)) :: fetchCalls env coin⟩ := by
  simp only [get_crypto_price, hs, hc]
  cases fetchPrice env coin <;> rfl

/-- Shape of a run when the search stage yields an empty coin list. -/
theorem run_not_found (env : Env) (text : String) (cf : Option (Option (List Coin)))
    (hs : env.search (pyLower (pyStrip text)) = .ok cf)
    (hc : getCoins cf = []) :
    get_crypto_price env text =
      ⟨["❌ No coin found for \x27" ++ pyLower (pyStrip text) ++ "\x27."],
       [.searchCall (pyLower (pyStrip text))]⟩ := by
  simp only [get_crypto_price, hs, hc]

/-- The first provider call of every run is the search call, keyed by the
normalized input. -/
theorem calls_head (env : Env) (text : String) :
    (get_crypto_price env text).calls.head? =
      some (.searchCall (pyLower (pyStrip text))) := by
  rcases hs : env.search (pyLower (pyStrip text)) with _ | _ | cf
  · simp [get_crypto_price, hs]
  · simp [get_crypto_price, hs]
  · rcases hc : getCoins cf with _ | ⟨coin, rest⟩
    · simp [get_crypto_price, hs, hc]
    · cases hf : fetchPrice env coin <;> simp [get_crypto_price, hs, hc, hf]

/-! ## Claims -/

/-- An environment in which the primary price call returns a non-success
status and the secondary call succeeds but its body lacks the `"USD"` key. -/
def envC1 : Env :=
  ⟨fun _ => .ok (some (some [⟨"bitcoin", "Bitcoin", "btc"⟩])),
   fun _ => .badStatus,
   fun _ => .ok none⟩

/-- C1 counterexample: the primary attempt fails and the secondary response
lacks the `"USD"` key — a secondary failure in the claim's sense — yet the
reply is the could-not-determine message, not the both-providers-failed
message the claim requires. -/
theorem C1_counterexample :
    (get_crypto_price envC1 "btc").replies = ["❌ Couldn\x27t determine the price."] ∧
    (get_crypto_price envC1 "btc").replies ≠ ["⚠️ Both price providers failed."] := by
  decide

/-- C1 (amended): for a resolved asset whose primary attempt fails, a
secondary call error or non-success status yields the reply that both
providers failed; a successful secondary response lacking the `"USD"` key
yields the distinct could-not-determine reply; in both cases the pipeline
returns a reply rather than raising. -/
theorem C1_secondary_failure_replies (env : Env) (text : String)
    (cf : Option (Option (List Coin))) (coin : Coin) (rest : List Coin)
    (hs : env.search (pyLower (pyStrip text)) = .ok cf)
    (hc : getCoins cf = coin :: rest)
    (hp : primaryFailed (env.primary coin.id) = true) :
    ((env.secondary (pyUpper coin.symbol) = .callError ∨
        env.secondary (pyUpper coin.symbol) = .badStatus) →
      (get_crypto_price env text).replies = ["⚠️ Both price providers failed."]) ∧
    (env.secondary (pyUpper coin.symbol) = .ok none →
      (get_crypto_price env text).replies = ["❌ Couldn\x27t determine the price."]) := by
  have hrun := run_resolved env text cf coin rest hs hc
  have hf := fetchPrice_of_failed env coin hp
  constructor
  · rintro (h2 | h2) <;> rw [hrun] <;> simp [hf, h2, secondaryOutcome]
  · intro h2
    rw [hrun]
    simp [hf, h2, secondaryOutcome]

/-- An environment making the primary attempt error and the secondary
attempt return a non-success status. -/
def envC1w : Env :=
  ⟨fun _ => .ok (some (some [⟨"bitcoin", "Bitcoin", "btc"⟩])),
   fun _ => .callError,
   fun _ => .badStatus⟩

/-- Witness for C1 (amended) at a concrete environment. -/
theorem C1_secondary_failure_replies_witness :
    (get_crypto_price envC1w "btc").replies = ["⚠️ Both price providers failed."] :=
  (C1_secondary_failure_replies envC1w "btc"
      (some (some [⟨"bitcoin", "Bitcoin", "btc"⟩]))
      ⟨"bitcoin", "Bitcoin", "btc"⟩ [] rfl rfl rfl).1 (Or.inr rfl)

/-- C2: each of the four primary-failure conditions — call error,
non-success status, absent asset-id key, absent USD sub-field — is a
failure for `primaryFailed`; any such failure routes to exactly one
secondary attempt keyed by the upper-cased ticker symbol (the call trace
is one search, one primary, one secondary call, so the primary is not
retried); and the four conditions are not distinguished: two environments
agreeing on search and secondary whose primary attempts both fail produce
identical runs. -/
theorem C2_fallback_routing (env : Env) (text : String)
    (cf : Option (Option (List Coin))) (coin : Coin) (rest : List Coin)
    (hs : env.search (pyLower (pyStrip text)) = .ok cf)
    (hc : getCoins cf = coin :: rest)
    (hp : primaryFailed (env.primary coin.id) = true) :
    (primaryFailed .callError = true ∧ primaryFailed .badStatus = true ∧
      primaryFailed (.ok none) = true ∧ primaryFailed (.ok (some none)) = true) ∧
    (get_crypto_price env text).calls =
      [.searchCall (pyLower (pyStrip text)), .primaryCall coin.id,
       .secondaryCall (pyUpper coin.symbol)] ∧
    (∀ env2 : Env, env2.search = env.search → env2.secondary = env.secondary →
      primaryFailed (env2.primary coin.id) = true →
      get_crypto_price env2 text = get_crypto_price env text) := by
  have hrun := run_resolved env text cf coin rest hs hc
  refine ⟨by decide, ?_, ?_⟩
  · rw [hrun]
    simp [fetchCalls_of_failed env coin hp]
  · intro env2 hse hsec hp2
    have hs2 : env2.search (pyLower (pyStrip text)) = .ok cf := by rw [hse]; exact hs
    have hrun2 := run_resolved env2 text cf coin rest hs2 hc
    rw [hrun, hrun2, fetchPrice_of_failed env coin hp, fetchPrice_of_failed env2 coin hp2,
      fetchCalls_of_failed env coin hp, fetchCalls_of_failed env2 coin hp2, hsec]

/-- An environment whose primary response omits the asset-id key and whose
secondary response carries a USD price. -/
def envC2w : Env :=
  ⟨fun _ => .ok (some (some [⟨"bitcoin", "Bitcoin", "btc"⟩])),
   fun _ => .ok none,
   fun _ => .ok (some (mkRat 1 1))⟩

/-- Witness for C2 at a concrete environment. -/
theorem C2_fallback_routing_witness :
    (get_crypto_price envC2w "btc").calls =
      [.searchCall "btc", .primaryCall "bitcoin", .secondaryCall "BTC"] :=
  (C2_fallback_routing envC2w "btc"
      (some (some [⟨"bitcoin", "Bitcoin", "btc"⟩]))
      ⟨"bitcoin", "Bitcoin", "btc"⟩ [] rfl rfl rfl).2.1

/-- C3: the reply carries the backup-provider annotation exactly when the
secondary provider supplied the price: a primary success composes the
message with no annotation, while a secondary success composes the same
message with `" (via backup)"` appended. -/
theorem C3_backup_note_iff_secondary (env : Env) (text : String)
    (cf : Option (Option (List Coin))) (coin : Coin) (rest : List Coin)
    (hs : env.search (pyLower (pyStrip text)) = .ok cf)
    (hc : getCoins cf = coin :: rest) :
    (∀ p : ℚ, env.primary coin.id = .ok (some (some p)) →
      (get_crypto_price env text).replies = [composeMsg coin p ""]) ∧
    (∀ p : ℚ, primaryFailed (env.primary coin.id) = true →
      env.secondary (pyUpper coin.symbol) = .ok (some p) →
      (get_crypto_price env text).replies = [composeMsg coin p "" ++ viaBackupNote]) := by
  have hrun := run_resolved env text cf coin rest hs hc
  constructor
  · intro p hp
    rw [hrun]
    simp [fetchPrice_of_success env coin p hp]
  · intro p hp hsec
    rw [hrun, fetchPrice_of_failed env coin hp, hsec]
    show [composeMsg coin p viaBackupNote] = [composeMsg coin p "" ++ viaBackupNote]
    rw [composeMsg_note]

/-- An environment whose primary attempt succeeds. -/
def envC3w : Env :=
  ⟨fun _ => .ok (some (some [⟨"bitcoin", "Bitcoin", "btc"⟩])),
   fun _ => .ok (some (some (mkRat 1 2))),
   fun _ => .callError⟩

/-- Witness for C3 at a concrete environment with a primary success. -/
theorem C3_backup_note_iff_secondary_witness :
    (get_crypto_price envC3w "btc").replies =
      [composeMsg ⟨"bitcoin", "Bitcoin", "btc"⟩ (mkRat 1 2) ""] :=
  (C3_backup_note_iff_secondary envC3w "btc"
      (some (some [⟨"bitcoin", "Bitcoin", "btc"⟩]))
      ⟨"bitcoin", "Bitcoin", "btc"⟩ [] rfl rfl).1 (mkRat 1 2) rfl

/-- C5: for every input text and every combination of provider outcomes,
the pipeline terminates with exactly one reply text (it is a total
function into a reply list of length one; no branch raises). -/
theorem C5_exactly_one_reply (env : Env) (text : String) :
    (get_crypto_price env text).replies.length = 1 := by
  rcases hs : env.search (pyLower (pyStrip text)) with _ | _ | cf
  · simp [get_crypto_price, hs]
  · simp [get_crypto_price, hs]
  · rcases hc : getCoins cf with _ | ⟨coin, rest⟩
    · simp [get_crypto_price, hs, hc]
    · cases hf : fetchPrice env coin <;> simp [get_crypto_price, hs, hc, hf]

/-- An environment whose search succeeds with zero matches. -/
def envC6 : Env :=
  ⟨fun _ => .ok (some (some [])), fun _ => .callError, fun _ => .callError⟩

/-- C6 counterexample: for the raw input `"ZZZZNOTACOIN"` the not-found
reply contains the normalized query, but the original input text occurs
nowhere in it. -/
theorem C6_counterexample :
    (get_crypto_price envC6 "ZZZZNOTACOIN").replies =
      ["❌ No coin found for \x27zzzznotacoin\x27."] ∧
    strContains ((get_crypto_price envC6 "ZZZZNOTACOIN").replies.headD "")
      "ZZZZNOTACOIN" = false ∧
    (get_crypto_price envC6 "ZZZZNOTACOIN").calls = [.searchCall "zzzznotacoin"] := by
  decide

/-- C6 (amended): when the search succeeds with zero matches, the reply is
the not-found message referencing the normalized (trimmed, lower-cased)
input text, and no price-provider call is made — the call trace is the
single search call. -/
theorem C6_not_found_no_price_call (env : Env) (text : String)
    (cf : Option (Option (List Coin)))
    (hs : env.search (pyLower (pyStrip text)) = .ok cf)
    (hc : getCoins cf = []) :
    get_crypto_price env text =
      ⟨["❌ No coin found for \x27" ++ pyLower (pyStrip text) ++ "\x27."],
       [.searchCall (pyLower (pyStrip text))]⟩ :=
  run_not_found env text cf hs hc

/-- Witness for C6 (amended) at a concrete environment. -/
theorem C6_not_found_no_price_call_witness :
    get_crypto_price envC6 "zzzznotacoin" =
      ⟨["❌ No coin found for \x27zzzznotacoin\x27."], [.searchCall "zzzznotacoin"]⟩ := by
  have h := C6_not_found_no_price_call envC6 "zzzznotacoin" (some (some [])) rfl rfl
  rw [h]
  decide

/-- An environment used to exercise whitespace-only input. -/
def envC7 : Env :=
  ⟨fun _ => .ok (some (some [])), fun _ => .callError, fun _ => .callError⟩

/-- C7 counterexample: a whitespace-only input is not short-circuited to a
usage-hint reply — the search provider is called with the empty normalized
query, and the reply is the not-found message. -/
theorem C7_counterexample :
    (get_crypto_price envC7 "   ").calls = [Call.searchCall ""] ∧
    (get_crypto_price envC7 "   ").replies = ["❌ No coin found for \x27\x27."] := by
  decide

/-- C7 (amended): on input that is empty after trimming the pipeline does
not short-circuit: its first provider call is a search keyed by the empty
query. -/
theorem C7_empty_input_still_searches (env : Env) (text : String)
    (h : pyLower (pyStrip text) = "") :
    (get_crypto_price env text).calls.head? = some (.searchCall "") := by
  have hh := calls_head env text
  rw [h] at hh
  exact hh

/-- Witness for C7 (amended) on a whitespace-only input. -/
theorem C7_empty_input_still_searches_witness :
    (get_crypto_price envC7 "  ").calls.head? = some (.searchCall "") :=
  C7_empty_input_still_searches envC7 "  " (by decide)

/-- An environment that resolves the query but where both price providers
fail. -/
def envC8 : Env :=
  ⟨fun _ => .ok (some (some [⟨"bitcoin", "Bitcoin", "btc"⟩])),
   fun _ => .badStatus,
   fun _ => .callError⟩

/-- C8 counterexample: the query resolves, but both providers fail, and the
final reply contains neither the upper-cased ticker symbol nor the display
name, contrary to the claim's unconditional statement. -/
theorem C8_counterexample :
    (get_crypto_price envC8 "btc").replies = ["⚠️ Both price providers failed."] ∧
    strContains ((get_crypto_price envC8 "btc").replies.headD "") "BTC" = false ∧
    strContains ((get_crypto_price envC8 "btc").replies.headD "") "Bitcoin" = false := by
  decide

/-- C8 (amended): for every resolved query the pipeline uses the first
search result — every price call is keyed by the first result's id or its
upper-cased symbol — and whenever a price reply is produced (some provider
supplied a price) that reply begins with the first result's upper-cased
ticker symbol and display name. -/
theorem C8_first_result_used (env : Env) (text : String)
    (cf : Option (Option (List Coin))) (coin : Coin) (rest : List Coin)
    (hs : env.search (pyLower (pyStrip text)) = .ok cf)
    (hc : getCoins cf = coin :: rest) :
    (∀ s, Call.primaryCall s ∈ (get_crypto_price env text).calls → s = coin.id) ∧
    (∀ s, Call.secondaryCall s ∈ (get_crypto_price env text).calls →
      s = pyUpper coin.symbol) ∧
    (∀ r ∈ (get_crypto_price env text).replies,
      r ≠ "⚠️ Both price providers failed." →
      r ≠ "❌ Couldn\x27t determine the price." →
      ∃ tail, r = "<b>" ++ pyUpper coin.symbol ++ "</b> (" ++ coin.name ++ tail) := by
  have hrun := run_resolved env text cf coin rest hs hc
  rw [hrun]
  refine ⟨?_, ?_, ?_⟩
  · intro s hsmem
    rcases List.mem_cons.1 hsmem with h1 | h1
    · cases h1
    · rcases fetchCalls_mem env coin _ h1 with h2 | h2
      · injection h2
      · cases h2
  · intro s hsmem
    rcases List.mem_cons.1 hsmem with h1 | h1
    · cases h1
    · rcases fetchCalls_mem env coin _ h1 with h2 | h2
      · cases h2
      · injection h2
  · intro r hr hnb hnp
    cases hf : fetchPrice env coin with
    | primaryPrice p =>
      rw [hf] at hr
      have hr' : r = composeMsg coin p "" := by simpa using hr
      exact ⟨")\n<b>Price (USD):</b> " ++ formatPrice p ++ "", by
        rw [hr', composeMsg]
        simp [String.append_assoc]⟩
    | backupPrice p =>
      rw [hf] at hr
      have hr' : r = composeMsg coin p viaBackupNote := by simpa using hr
      exact ⟨")\n<b>Price (USD):</b> " ++ formatPrice p ++ viaBackupNote, by
        rw [hr', composeMsg]
        simp [String.append_assoc]⟩
    | bothFailed =>
      rw [hf] at hr
      exact absurd (by simpa using hr) hnb
    | noPrice =>
      rw [hf] at hr
      exact absurd (by simpa using hr) hnp

/-- An environment that resolves the query and serves a primary price. -/
def envC8w : Env :=
  ⟨fun _ => .ok (some (some [⟨"bitcoin", "Bitcoin", "btc"⟩])),
   fun _ => .ok (some (some (mkRat 1000 1))),
   fun _ => .callError⟩

/-- Witness for C8 (amended): the concrete price reply decomposes as the
upper-cased symbol and display name followed by the price tail. -/
theorem C8_first_result_used_witness :
    ∃ tail, "<b>BTC</b> (Bitcoin)\n<b>Price (USD):</b> $1,000.00" =
      "<b>" ++ pyUpper "btc" ++ "</b> (" ++ "Bitcoin" ++ tail :=
  (C8_first_result_used envC8w "btc"
      (some (some [⟨"bitcoin", "Bitcoin", "btc"⟩]))
      ⟨"bitcoin", "Bitcoin", "btc"⟩ [] rfl rfl).2.2
    "<b>BTC</b> (Bitcoin)\n<b>Price (USD):</b> $1,000.00"
    (by decide) (by decide) (by decide)

/-- C9: a successful search response whose body lacks the `"coins"` key or
maps it to null is treated exactly like an empty match list: the run is
the not-found run (single search call, not-found reply), and the reply is
not the search-error message. -/
theorem C9_missing_coins_like_empty (env : Env) (text : String)
    (h : env.search (pyLower (pyStrip text)) = .ok none ∨
         env.search (pyLower (pyStrip text)) = .ok (some none)) :
    get_crypto_price env text =
      ⟨["❌ No coin found for \x27" ++ pyLower (pyStrip text) ++ "\x27."],
       [.searchCall (pyLower (pyStrip text))]⟩ ∧
    (get_crypto_price env text).replies ≠ ["⚠️ Error searching for that coin."] := by
  have key : get_crypto_price env text =
      ⟨["❌ No coin found for \x27" ++ pyLower (pyStrip text) ++ "\x27."],
       [.searchCall (pyLower (pyStrip text))]⟩ := by
    rcases h with h | h
    · exact run_not_found env text none h rfl
    · exact run_not_found env text (some none) h rfl
  refine ⟨key, ?_⟩
  rw [key]
  intro hbad
  have h1 : ("❌ No coin found for \x27" ++ pyLower (pyStrip text) ++ "\x27.") =
      "⚠️ Error searching for that coin." := by
    simpa using hbad
  have h2 : (("❌ No coin found for \x27" ++ pyLower (pyStrip text) ++ "\x27.").data.head?) =
      ("⚠️ Error searching for that coin.".data.head?) := by rw [h1]
  have h3 : some '❌' = some '⚠' := h2
  exact absurd h3 (by decide)

/-- An environment whose search response lacks the `"coins"` key. -/
def envC9w : Env :=
  ⟨fun _ => .ok none, fun _ => .callError, fun _ => .callError⟩

/-- Witness for C9 at a concrete environment. -/
theorem C9_missing_coins_like_empty_witness :
    get_crypto_price envC9w "btc" =
      ⟨["❌ No coin found for \x27btc\x27."], [.searchCall "btc"]⟩ := by
  have h := (C9_missing_coins_like_empty envC9w "btc" (Or.inl rfl)).1
  rw [h]
  decide

end PriceBot
